import Mathlib

/-!
Verification of the nsm66 OSC endpoint/peer-signal protocol engine.

This file is a shallow embedding of the core protocol code of the nsm66
repository (src/src/osc/messages.cpp, src/src/osc/endpoint.cpp,
src/src/osc/signal.cpp, together with the declarations in the matching
headers), and proofs of the behavioural properties claimed for it.

Modelling decisions, applied uniformly:

- C++ `float` fields are embedded as `Int`.  In every modelled operation
  floats are only stored, copied, and compared for (in)equality; no
  arithmetic is performed on them, so an integer carrier with decidable
  equality is faithful up to the NaN corner of IEEE `==`/`!=`.
- `lo_address` values (libLO) are embedded as (host, port) string pairs;
  `lo_address_new_from_url` (an external libLO parser) is modelled by
  handing the handlers the already-parsed pair.  `endpoint::address_matches`
  (endpoint.cpp:1011) compares only the port components, exactly as the
  source does via `lo_address_get_port`.
- The libLO server method table (`lo_server_add_method` /
  `lo_server_del_method` with a NULL typespec, as used for signal handlers)
  is embedded as a list of registered paths; deletion removes every
  registration with the given path.
- Heap objects reached through pointers (signals in `std::list<signal *>`)
  carry a numeric `sid` field modelling pointer identity.
- `std::map` iteration is in ascending key order; the translation map is
  embedded as an association list kept sorted by a lexicographic
  byte-order on keys, and handlers that mutate "the found element in
  place" are embedded as first-match updates.
- Outbound traffic (`lowrapper::send`, `lo_send_message`) and callback
  invocations are embedded as an emitted event trace.
-/

namespace osc

/-! ## Message registry (src/src/osc/messages.cpp, include/osc/messages.hpp) -/

/-- The closed enumeration of protocol operations, `enum class tag`
(messages.hpp:123-204), in declaration order. -/
inductive tag
  | announce
  | cliclean
  | clidirty
  | clihide
  | clilabel
  | cliloaded
  | climessage
  | cliopen
  | cliprogress
  | clisave
  | clishow
  | ctlannounce
  | error
  | generic
  | guiannounce
  | gui_announce
  | guidirty
  | guihidden
  | guihide
  | guilabel
  | guimessage
  | guinew
  | guioption
  | guiprogress
  | guiremove
  | guiresume
  | guisave
  | guisession
  | guisessionname
  | guishow
  | guishown
  | guisrvannounce
  | guistatus
  | guistop
  | guiswitch
  | guivisible
  | nonaddstrip
  | nonhello
  | null
  | oscping
  | oscreply
  | proxyargs
  | proxycfgfile
  | proxyerror
  | proxyexe
  | proxykill
  | proxylabel
  | proxysave
  | proxystart
  | proxystop
  | proxyupdate
  | reply
  | replyex
  | sessionlist
  | sessionname
  | sessionroot
  | sigconnect
  | sigcreated
  | sigdisconnect
  | sighello
  | siglist
  | sigremoved
  | sigrenamed
  | sigreply
  | srvabort
  | srvadd
  | srvannounce
  | srvbroadcast
  | srvclose
  | srvduplicate
  | srvlist
  | srvmessage
  | srvnew
  | srvopen
  | srvquit
  | srvreply
  | srvsave
  | stripbynumber
  | illegal
deriving DecidableEq

/-- The `NIL` sentinel string (messages.hpp:42): converted to a NULL
pointer when handed to libLO. -/
def NIL : String := "-"

/-- `messagepair` (messages.hpp:211-215): wire path and type-signature. -/
structure messagepair where
  msg_text : String
  msg_pattern : String
deriving DecidableEq

set_option maxHeartbeats 1600000 in
/-- The static `s_all_messages` table (messages.cpp:96-188), in its literal
order, which is also ascending `tag` order, so association-list search
coincides with `std::map` lookup/iteration. -/
def all_messages : List (tag × messagepair) :=
  [ (tag.announce,       ⟨"/nsm/gui/gui_announce",             ""⟩),
    (tag.cliclean,       ⟨"/nsm/client/is_clean",              ""⟩),
    (tag.clidirty,       ⟨"/nsm/client/is_dirty",              ""⟩),
    (tag.clihide,        ⟨"/nsm/client/hide_optional_gui",     ""⟩),
    (tag.clilabel,       ⟨"/nsm/client/label",                 "s"⟩),
    (tag.cliloaded,      ⟨"/nsm/client/session_is_loaded",     ""⟩),
    (tag.climessage,     ⟨"/nsm/client/message",               "is"⟩),
    (tag.cliopen,        ⟨"/nsm/client/open",                  "sss"⟩),
    (tag.cliprogress,    ⟨"/nsm/client/progress",              "f"⟩),
    (tag.clisave,        ⟨"/nsm/client/save",                  ""⟩),
    (tag.clishow,        ⟨"/nsm/client/show_optional_gui",     ""⟩),
    (tag.ctlannounce,    ⟨"/nsm/gui/server/announce",          "s"⟩),
    (tag.error,          ⟨"/error",                            "sis"⟩),
    (tag.generic,        ⟨NIL,                                 NIL⟩),
    (tag.guiannounce,    ⟨"/nsm/gui/gui_announce",             ""⟩),
    (tag.gui_announce,   ⟨"/nsm/gui/gui_announce",             "s"⟩),
    (tag.guidirty,       ⟨"/nsm/gui/client/dirty",             "si"⟩),
    (tag.guihidden,      ⟨"/nsm/client/gui_is_hidden",         ""⟩),
    (tag.guihide,        ⟨"/nsm/gui/client/hide_optional_gui", "s"⟩),
    (tag.guilabel,       ⟨"/nsm/gui/client/label",             "ss"⟩),
    (tag.guimessage,     ⟨"/nsm/gui/client/message",           "s"⟩),
    (tag.guinew,         ⟨"/nsm/gui/client/new",               "ss"⟩),
    (tag.guioption,      ⟨"/nsm/gui/client/has_optional_gui",  "s"⟩),
    (tag.guiprogress,    ⟨"/nsm/gui/client/progress",          "sf"⟩),
    (tag.guiremove,      ⟨"/nsm/gui/client/remove",            "s"⟩),
    (tag.guiresume,      ⟨"/nsm/gui/client/resume",            "s"⟩),
    (tag.guisave,        ⟨"/nsm/gui/client/save",              "s"⟩),
    (tag.guisession,     ⟨"/nsm/gui/session/session",          "s"⟩),
    (tag.guisessionname, ⟨"/nsm/gui/session/name",             "ss"⟩),
    (tag.guishow,        ⟨"/nsm/gui/client/show_optional_gui", "s"⟩),
    (tag.guishown,       ⟨"/nsm/client/gui_is_shown",          ""⟩),
    (tag.guisrvannounce, ⟨"/nsm/gui/server_announce",          "s"⟩),
    (tag.guistatus,      ⟨"/nsm/gui/client/status",            "ss"⟩),
    (tag.guistop,        ⟨"/nsm/gui/client/stop",              "s"⟩),
    (tag.guiswitch,      ⟨"/nsm/gui/client/switch",            "ss"⟩),
    (tag.guivisible,     ⟨"/nsm/gui/client/gui_visible",       "si"⟩),
    (tag.nonaddstrip,    ⟨"/non/mixer/add_strip",              ""⟩),
    (tag.nonhello,       ⟨"/non/hello",                        "ssss"⟩),
    (tag.null,           ⟨NIL,                                 NIL⟩),
    (tag.oscping,        ⟨"/osc/ping",                         ""⟩),
    (tag.oscreply,       ⟨"",                                  ""⟩),
    (tag.proxyargs,      ⟨"/nsm/proxy/arguments",              "s"⟩),
    (tag.proxycfgfile,   ⟨"/nsm/proxy/config_file",            "s"⟩),
    (tag.proxyerror,     ⟨"/nsm/proxy/client_error",           "s"⟩),
    (tag.proxyexe,       ⟨"/nsm/proxy/executable",             "s"⟩),
    (tag.proxykill,      ⟨"/nsm/proxy/kill",                   ""⟩),
    (tag.proxylabel,     ⟨"/nsm/proxy/label",                  "s"⟩),
    (tag.proxysave,      ⟨"/nsm/proxy/save_signal",            "i"⟩),
    (tag.proxystart,     ⟨"/nsm/proxy/start",                  "sss"⟩),
    (tag.proxystop,      ⟨"/nsm/proxy/stop_signal",            "i"⟩),
    (tag.proxyupdate,    ⟨"/nsm/proxy/update",                 ""⟩),
    (tag.reply,          ⟨"/reply",                            "ss"⟩),
    (tag.replyex,        ⟨"/reply",                            "ssss"⟩),
    (tag.sessionlist,    ⟨"/nsm/session/list",                 "?"⟩),
    (tag.sessionname,    ⟨"/nsm/session/name",                 "ss"⟩),
    (tag.sessionroot,    ⟨"/nsm/gui/session/root",             "s"⟩),
    (tag.sigconnect,     ⟨"/signal/connect",                   "ss"⟩),
    (tag.sigcreated,     ⟨"/signal/created",                   "ssfff"⟩),
    (tag.sigdisconnect,  ⟨"/signal/disconnect",                "ss"⟩),
    (tag.sighello,       ⟨"/signal/hello",                     "ss"⟩),
    (tag.siglist,        ⟨"/signal/list",                      NIL⟩),
    (tag.sigremoved,     ⟨"/signal/removed",                   "s"⟩),
    (tag.sigrenamed,     ⟨"/signal/renamed",                   "ss"⟩),
    (tag.sigreply,       ⟨"/reply",                            NIL⟩),
    (tag.srvabort,       ⟨"/nsm/server/abort",                 ""⟩),
    (tag.srvadd,         ⟨"/nsm/server/add",                   "s"⟩),
    (tag.srvannounce,    ⟨"/nsm/server/announce",              "sssiii"⟩),
    (tag.srvbroadcast,   ⟨"/nsm/server/broadcast",             NIL⟩),
    (tag.srvclose,       ⟨"/nsm/server/close",                 ""⟩),
    (tag.srvduplicate,   ⟨"/nsm/server/duplicate",             "s"⟩),
    (tag.srvlist,        ⟨"/nsm/server/list",                  ""⟩),
    (tag.srvmessage,     ⟨"/nsm/gui/server/message",           "s"⟩),
    (tag.srvnew,         ⟨"/nsm/server/new",                   "s"⟩),
    (tag.srvopen,        ⟨"/nsm/server/open",                  "s"⟩),
    (tag.srvquit,        ⟨"/nsm/server/quit",                  ""⟩),
    (tag.srvreply,       ⟨"/reply",                            "s"⟩),
    (tag.srvsave,        ⟨"/nsm/server/save",                  ""⟩),
    (tag.stripbynumber,  ⟨"",                                  ""⟩) ]

/-- `tag_lookup` (messages.cpp:228-258): forward lookup of a tag in the
all-messages table; `some` corresponds to the C++ `true` return with the
message/pattern out-parameters filled in. -/
def tag_lookup : List (tag × messagepair) → tag → Option messagepair
  | [], _ => none
  | e :: l, t => if e.1 = t then some e.2 else tag_lookup l t

/-- `tag_message` (messages.cpp:285-294): the path for a tag, or the
empty string when the tag has no entry. -/
def tag_message (t : tag) : String :=
  match tag_lookup all_messages t with
  | some mp => mp.msg_text
  | none => ""

/-- The pattern (type-signature) component of a forward lookup, for
stating properties; mirrors the `pattern` out-parameter of `tag_lookup`. -/
def tag_pattern (t : tag) : String :=
  match tag_lookup all_messages t with
  | some mp => mp.msg_pattern
  | none => ""

/-- `tag_reverse_lookup` (messages.cpp:313-337): first entry (in table
order) whose path equals `message` and, unless the wildcard "?" is given,
whose pattern equals `pattern`; `illegal` when none matches. -/
def tag_reverse_lookup : List (tag × messagepair) → String → String → tag
  | [], _, _ => tag.illegal
  | e :: l, message, pattern =>
    if e.2.msg_text = message ∧ (pattern = "?" ∨ e.2.msg_pattern = pattern) then
      e.1
    else
      tag_reverse_lookup l message pattern

/-- A tag whose (path, pattern) pair also appears under a different tag in
the all-messages table; C2 excludes these documented collisions from the
inverse-lookup round-trip. -/
def shares_pair (t : tag) : Bool :=
  match tag_lookup all_messages t with
  | none => false
  | some mp => all_messages.any (fun e => decide (e.1 ≠ t) && decide (e.2 = mp))

/-- C2: for every operation identifier other than the `illegal` sentinel,
forward lookup in the all-messages table succeeds (so its path string is
defined), and — provided the identifier's (path, type-signature) pair is
not shared with another identifier — inverse lookup of that exact pair
returns the original identifier. -/
theorem registry_totality_and_roundtrip (t : tag) (h : t ≠ tag.illegal) :
    (tag_lookup all_messages t).isSome ∧
      (shares_pair t = false →
        tag_reverse_lookup all_messages (tag_message t) (tag_pattern t) = t) := by
  cases t <;> first
    | exact absurd rfl h
    | exact of_decide_eq_true rfl

/-- Witness for C2 at the concrete tag `sighello`. -/
theorem registry_totality_and_roundtrip_witness :
    tag.sighello ≠ tag.illegal ∧
      ((tag_lookup all_messages tag.sighello).isSome ∧
        (shares_pair tag.sighello = false →
          tag_reverse_lookup all_messages (tag_message tag.sighello)
            (tag_pattern tag.sighello) = tag.sighello)) :=
  ⟨by decide, registry_totality_and_roundtrip tag.sighello (by decide)⟩

/-- C8 counterexample: the claim asserts that `announce` and `guiannounce`
map to /nsm/gui/gui_announce with DIFFERENT type-signatures; in the table
(messages.cpp:101,122) both carry the empty signature, so the claim is
false at this pair of identifiers. -/
theorem announce_same_signature_counterexample :
    ¬ (tag_message tag.announce = "/nsm/gui/gui_announce" ∧
        tag_message tag.guiannounce = "/nsm/gui/gui_announce" ∧
        tag_pattern tag.announce ≠ tag_pattern tag.guiannounce) := by
  decide

/-- C8 amended: `announce` and `guiannounce` both map to
/nsm/gui/gui_announce with the SAME empty type-signature; the identifier
that maps to that path with a different signature is `gui_announce`
(signature "s", messages.cpp:123). -/
theorem announce_guiannounce_gui_announce_paths :
    tag_message tag.announce = "/nsm/gui/gui_announce" ∧
      tag_message tag.guiannounce = "/nsm/gui/gui_announce" ∧
      tag_pattern tag.announce = "" ∧
      tag_pattern tag.guiannounce = "" ∧
      tag_message tag.gui_announce = "/nsm/gui/gui_announce" ∧
      tag_pattern tag.gui_announce = "s" := by
  decide

/-! ## Data model (include/osc/signal.hpp, include/osc/endpoint.hpp)

C++ `float` fields become `Int` (see the header comment); raw pointers
become `sid` identity numbers; `lo_address` becomes a (host, port) pair.
-/

/-- `signal::direction` (signal.hpp:84-89). -/
inductive direction
  | input
  | output
  | bidirectional
deriving DecidableEq

/-- `signal::state` (signal.hpp:78-82), passed to the peer-signal
notification callback. -/
inductive sigstate
  | created
  | removed
deriving DecidableEq

/-- `parameter_limits` (signal.hpp:53-58). -/
structure parameter_limits where
  pl_min : Int
  pl_max : Int
  pl_default_value : Int
deriving DecidableEq

/-- `osc::signal` (signal.hpp:72-171), restricted to the data fields the
modelled operations touch.  `sid` models the object's address (pointer
identity); the handler/callback and endpoint/peer back-pointers carry no
data relevant to the claims. -/
structure signal where
  sid : Nat
  m_path : String
  m_direction : direction
  m_value : Int
  m_parameter_limits : parameter_limits
deriving DecidableEq

/-- A parsed `lo_address`: libLO's url parsing is external, so handlers
receive the (host, port) pair directly. -/
structure address where
  host : String
  port : String
deriving DecidableEq

/-- `struct peer` (signal.hpp:62-68). -/
structure peer where
  p_scanning : Bool
  p_name : String
  p_addr : address
  p_signals : List signal
deriving DecidableEq

/-- `endpoint::translation_destination` (endpoint.hpp:78-93); its default
constructor yields path "", cached value -1.0f, suppress-feedback false. -/
structure translation_destination where
  m_path : String
  m_current_value : Int
  m_suppress_feedback : Bool
deriving DecidableEq

/-- `osc::method` (method.hpp), restricted to the registration data. -/
structure method where
  m_path : String
  m_typespec : String
deriving DecidableEq

/-- Destination of an outbound wire message: a peer address, the
endpoint's own outbound target (`ep->address()`, used by the verbatim
translation forward), or the source address of the message being handled
(`lo_message_get_source(msg)`). -/
inductive dest
  | toAddr (a : address)
  | self
  | source
deriving DecidableEq

/-- An OSC argument (`lo_arg`), restricted to the types the modelled
messages carry. -/
inductive arg
  | s (v : String)
  | i (v : Int)
  | f (v : Int)
deriving DecidableEq

/-- `string_from_lo_arg` / `&argv[k]->s`: reading a non-string argument
through the string union member yields junk, modelled as "". -/
def argString : arg → String
  | arg.s v => v
  | _ => ""

/-- `argv[k]->f`: reading a non-float argument through the float union
member yields junk, modelled as 0. -/
def argFloat : arg → Int
  | arg.f v => v
  | _ => 0

/-- An element of the observable output trace: an outbound message, an
invocation of the peer-scan-complete callback, or an invocation of the
peer-signal notification callback. -/
inductive msg
  | send (d : dest) (path : String) (args : List arg)
  | scanCompleteCB
  | peerSignalCB (sg : signal) (st : sigstate)
deriving DecidableEq

/-- `osc_msg_handled` (0) / `osc_msg_unhandled` (non-zero) dispatch
results. -/
inductive hres
  | handled
  | unhandled
deriving DecidableEq

/-- `osc::endpoint` (endpoint.hpp:72-385), restricted to the state the
modelled operations read and write.  `serverMethods` is the libLO server's
table of NULL-typespec registrations (signal handlers); `selfUrl` is the
endpoint's own url string (`lowrapper::url()`); the two `has...CB` flags
record whether the corresponding callback pointer is non-null. -/
structure endpoint where
  m_peers : List peer
  m_signals : List signal
  m_methods : List method
  m_learning_path : String
  m_translations : List (String × translation_destination)
  m_name : String
  selfUrl : String
  serverMethods : List String
  hasScanCompleteCB : Bool
  hasPeerSignalCB : Bool
deriving DecidableEq

/-! ## Generic list and association-list helpers

The translation map is `std::map<std::string, translation_destination>`
(endpoint.hpp:95): iteration is in ascending key order, and in-place
mutation through an iterator touches exactly the found entry.  Peers and
signals are `std::list`s of pointers searched front to back, mutated
through the found pointer; this is first-match search plus first-match
in-place update.
-/

/-- Update the first element satisfying `P` in place. -/
def update_first {α : Type} (P : α → Bool) (f : α → α) : List α → List α
  | [] => []
  | x :: xs => if P x then f x :: xs else x :: update_first P f xs

/-- Byte-wise lexicographic order on strings (`std::string::operator<`),
written out over the character lists so that it evaluates in the kernel. -/
def str_lt_chars : List Char → List Char → Bool
  | [], [] => false
  | [], _ :: _ => true
  | _ :: _, [] => false
  | a :: as, b :: bs => if a = b then str_lt_chars as bs else decide (a.val < b.val)

/-- String comparison used to keep the translation map sorted by key. -/
def str_lt (a b : String) : Bool :=
  str_lt_chars a.data b.data

/-- `std::map::find`: first (unique, by sortedness) entry with the key. -/
def assocFind : List (String × translation_destination) → String →
    Option translation_destination
  | [], _ => none
  | e :: l, k => if e.1 = k then some e.2 else assocFind l k

/-- In-place mutation of the found map entry through its iterator. -/
def assocUpdate : List (String × translation_destination) → String →
    (translation_destination → translation_destination) →
    List (String × translation_destination)
  | [], _, _ => []
  | e :: l, k, f => if e.1 = k then (e.1, f e.2) :: l else e :: assocUpdate l k f

/-! ## Translation map operations (endpoint.cpp:690-768) -/

/-- `endpoint::add_translation` (endpoint.cpp:696-700):
`m_translations[a].m_path = b` — default-construct the entry if absent
(sorted insertion, preserving cached value and flag when present). -/
def add_translation (l : List (String × translation_destination)) (a b : String) :
    List (String × translation_destination) :=
  match l with
  | [] => [(a, ⟨b, -1, false⟩)]
  | e :: rest =>
    if a = e.1 then (e.1, {e.2 with m_path := b}) :: rest
    else if str_lt a e.1 then (a, ⟨b, -1, false⟩) :: e :: rest
    else e :: add_translation rest a b

/-- `endpoint::rename_translation_destination` (endpoint.cpp:710-725):
retargets the FIRST translation whose destination equals `a` and then
`break`s out of the loop. -/
def rename_translation_destination
    (l : List (String × translation_destination)) (a b : String) :
    List (String × translation_destination) :=
  match l with
  | [] => []
  | e :: rest =>
    if e.2.m_path = a then (e.1, {e.2 with m_path := b}) :: rest
    else e :: rename_translation_destination rest a b

/-! ## Peer lookup (endpoint.cpp:1045-1071) and signal lookup -/

/-- `endpoint::find_peer_by_address` (endpoint.cpp:1045-1060): first peer
whose address has the same port as the given source address. -/
def find_peer_by_address (l : List peer) (srcPort : String) : Option peer :=
  l.find? (fun p => p.p_addr.port = srcPort)

/-- In-place mutation of the peer found by `find_peer_by_address`. -/
def update_peer_by_address (l : List peer) (srcPort : String) (f : peer → peer) :
    List peer :=
  update_first (fun p => p.p_addr.port = srcPort) f l

/-- `endpoint::find_peer_by_name` (endpoint.cpp:1062-1071). -/
def find_peer_by_name (l : List peer) (n : String) : Option peer :=
  l.find? (fun p => p.p_name = n)

/-- In-place mutation of the peer found by `find_peer_by_name`. -/
def update_peer_by_name (l : List peer) (n : String) (f : peer → peer) :
    List peer :=
  update_first (fun p => p.p_name = n) f l

/-- `endpoint::find_peer_signal_by_path` (endpoint.cpp:240-249). -/
def find_peer_signal_by_path (p : peer) (path : String) : Option signal :=
  p.p_signals.find? (fun s => s.m_path = path)

/-- `"in"` / `"out"` direction strings as parsed by the handlers
(endpoint.cpp:542-546, 936-940); anything else means bidirectional. -/
def direction_of (s : String) : direction :=
  if s = "in" then direction.input
  else if s = "out" then direction.output
  else direction.bidirectional

/-! ## Peer discovery (endpoint.cpp:266-318, 1329-1357) -/

/-- `endpoint::hello` (endpoint.cpp:266-273): send
"/signal/hello" (name, own url) to the given url's address. -/
def hello_msgs (st : endpoint) (u : address) : List msg :=
  [msg.send (dest.toAddr u) (tag_message tag.sighello)
    [arg.s st.m_name, arg.s st.selfUrl]]

/-- `endpoint::scan_peer` (endpoint.cpp:1350-1357): `add_peer` (append a
new peer record; its uninitialized scanning flag is immediately set true)
followed by a "/signal/list" request to the new peer. -/
def scan_peer (st : endpoint) (n : String) (u : address) : endpoint × List msg :=
  ({st with m_peers := st.m_peers ++ [⟨true, n, u, []⟩]},
   [msg.send (dest.toAddr u) (tag_message tag.siglist) []])

/-- `endpoint::handle_hello` (endpoint.cpp:279-318).  Unknown peer name:
create-and-scan.  Known name, same port (`address_matches`,
endpoint.cpp:1011-1017, compares ports only): early return, nothing
changes and no hello is sent back.  Known name, different port: replace
the stored address, re-enter scanning, re-send the list request.  The
closing hello-back is sent only when this endpoint already has a name. -/
def handle_hello (st : endpoint) (peer_name : String) (peer_url : address) :
    endpoint × List msg :=
  match find_peer_by_name st.m_peers peer_name with
  | none =>
    let r := scan_peer st peer_name peer_url
    (r.1, r.2 ++ (if st.m_name = "" then [] else hello_msgs st peer_url))
  | some p =>
    if peer_url.port = p.p_addr.port then (st, [])
    else
      let refresh := fun (q : peer) => {q with p_addr := peer_url, p_scanning := true}
      ({st with m_peers := update_peer_by_name st.m_peers peer_name refresh},
       msg.send (dest.toAddr peer_url) (tag_message tag.siglist) [] ::
         (if st.m_name = "" then [] else hello_msgs st peer_url))

/-! ## The /reply handler (endpoint.cpp:885-961) and the peer-initiated
signal-creation handler (endpoint.cpp:509-569) -/

/-- `endpoint::osc_reply` (endpoint.cpp:885-961).  The source executes
`std::string sigcmd = &argv[0]->s;` BEFORE the `argc > 0` guard, so a
zero-argument message dereferences the empty argument array: modelled as
`none` (the fault).  Otherwise: a "/signal/list" echo with one argument is
the list-scan terminator (clear the peer's scanning flag, fire the
scan-complete callback); with six arguments while scanning it records one
remote signal, skipping a path the peer already has. -/
def osc_reply (st : endpoint) (args : List arg) (srcPort : String) :
    Option (endpoint × List msg × hres) :=
  match args with
  | [] => none
  | a0 :: rest =>
    if argString a0 = tag_message tag.siglist then
      match find_peer_by_address st.m_peers srcPort with
      | none => some (st, [], hres.handled)
      | some p =>
        match rest with
        | [] =>
          let clear := fun (q : peer) => {q with p_scanning := false}
          some ({st with m_peers := update_peer_by_address st.m_peers srcPort clear},
                if st.hasScanCompleteCB then [msg.scanCompleteCB] else [],
                hres.handled)
        | [a1, a2, a3, a4, a5] =>
          if p.p_scanning then
            let pathname := argString a1
            match find_peer_signal_by_path p pathname with
            | some _ => some (st, [], hres.handled)
            | none =>
              let s : signal :=
                ⟨0, pathname, direction_of (argString a2), argFloat a5,
                  ⟨argFloat a3, argFloat a4, argFloat a5⟩⟩
              let push := fun (q : peer) => {q with p_signals := q.p_signals ++ [s]}
              some ({st with m_peers := update_peer_by_address st.m_peers srcPort push},
                    if st.hasPeerSignalCB then [msg.peerSignalCB s sigstate.created]
                    else [],
                    hres.handled)
          else some (st, [], hres.handled)
        | _ => some (st, [], hres.handled)
    else some (st, [], hres.unhandled)

/-- `endpoint::osc_sig_created` (endpoint.cpp:509-569): with at least five
arguments and a known source peer, unconditionally allocate a new remote
signal record and append it to that peer's signal list — there is no check
for an existing signal with the same path. -/
def osc_sig_created (st : endpoint) (args : List arg) (srcPort : String) :
    endpoint × List msg × hres :=
  match args with
  | a0 :: a1 :: a2 :: a3 :: a4 :: _ =>
    match find_peer_by_address st.m_peers srcPort with
    | none => (st, [], hres.handled)
    | some _ =>
      let s : signal :=
        ⟨0, argString a0, direction_of (argString a1), argFloat a4,
          ⟨argFloat a2, argFloat a3, argFloat a4⟩⟩
      let push := fun (q : peer) => {q with p_signals := q.p_signals ++ [s]}
      ({st with m_peers := update_peer_by_address st.m_peers srcPort push},
       if st.hasPeerSignalCB then [msg.peerSignalCB s sigstate.created] else [],
       hres.handled)
  | _ => (st, [], hres.handled)

/-! ## The generic handler and feedback routing
(endpoint.cpp:770-836, 1292-1327) -/

/-- `util::strncompare(a, b, n)` (external cfg66 helper, used at
endpoint.cpp:821): the first `n` characters of the two strings agree.  In
the one call site `n` is `b`'s length, making this a prefix test. -/
def strncompare (a b : String) (n : Nat) : Bool :=
  decide (a.data.take n = b.data.take n)

/-- `ppath.back() == '/'` (endpoint.cpp:813).  `back()` on an empty
string is undefined behaviour in C++; modelled as false (treated like a
non-slash terminator), which no modelled claim exercises. -/
def ends_in_slash (p : String) : Bool :=
  match p.data.getLast? with
  | some c => c = '/'
  | none => false

/-- `endpoint::osc_generic` (endpoint.cpp:770-836).  With no arguments:
handled, nothing happens.  In learn mode: record a translation from the
inbound path to the pending learn target and clear learn mode.  If the
inbound path is a translation source: cache the value when the signature
is "f", set the suppress-feedback flag, and forward the message verbatim
to the destination path on the endpoint's own outbound address.  A path
not ending in '/' is left unhandled; otherwise every registered method
whose path extends the inbound prefix is echoed back to the sender,
terminated by a one-argument reply. -/
def osc_generic (st : endpoint) (path types : String) (args : List arg) :
    endpoint × List msg × hres :=
  match args with
  | [] => (st, [], hres.handled)
  | a0 :: _ =>
    if st.m_learning_path ≠ "" then
      ({st with m_translations := add_translation st.m_translations path st.m_learning_path,
                m_learning_path := ""}, [], hres.handled)
    else
      match assocFind st.m_translations path with
      | some t =>
        let forward := fun (u : translation_destination) =>
          ⟨u.m_path, if types = "f" then argFloat a0 else u.m_current_value, true⟩
        ({st with m_translations := assocUpdate st.m_translations path forward},
         [msg.send dest.self t.m_path args], hres.handled)
      | none =>
        if ¬ ends_in_slash path then (st, [], hres.unhandled)
        else
          let listing := st.m_methods.filterMap (fun m =>
            if m.m_path = "" then none
            else if strncompare m.m_path path path.data.length then
              some (msg.send dest.source (tag_message tag.reply)
                [arg.s path, arg.s m.m_path])
            else none)
          (st, listing ++ [msg.send dest.source (tag_message tag.srvreply) [arg.s path]],
           hres.handled)

/-- The state update `endpoint::send_feedback` applies to one translation
entry (endpoint.cpp:1306-1325): on a destination match, forward-and-cache
when neither suppressed nor unchanged; the suppress flag is cleared
unconditionally afterwards. -/
def sf_val (path : String) (v : Int) (t : translation_destination) :
    translation_destination :=
  if t.m_path = path then
    ⟨t.m_path,
     if ¬ t.m_suppress_feedback ∧ t.m_current_value ≠ v then v else t.m_current_value,
     false⟩
  else t

/-- The messages `endpoint::send_feedback` emits for one translation entry
with source key `k`: the new value to the source path on every peer,
exactly when the entry matches the destination, is not suppressed, and the
value changed. -/
def sf_msgs (peers : List peer) (path : String) (v : Int) (k : String)
    (t : translation_destination) : List msg :=
  if t.m_path = path ∧ ¬ t.m_suppress_feedback ∧ t.m_current_value ≠ v then
    peers.map (fun p => msg.send (dest.toAddr p.p_addr) k [arg.f v])
  else []

/-- `endpoint::send_feedback` (endpoint.cpp:1303-1327): one pass over the
whole translation map (no break). -/
def send_feedback (st : endpoint) (path : String) (v : Int) : endpoint × List msg :=
  ({st with m_translations :=
      st.m_translations.map (fun e => (e.1, sf_val path v e.2))},
   (st.m_translations.map (fun e => sf_msgs st.m_peers path v e.1 e.2)).flatten)

/-! ## Signal lifecycle operations (signal.cpp:100-123, endpoint.cpp:1073-1114,
1273-1285) -/

/-- `signal::rename` (signal.cpp:100-123): compute the new full path
(endpoint name + short path), re-register the NULL-typespec wire handler
under the new path (deleting the old registration), notify every peer with
"/signal/renamed" (old, new), retarget the translation destination, and
update the signal's own path (modelled through its `sid` identity). -/
def signal_rename (st : endpoint) (o : signal) (short : String) : endpoint × List msg :=
  let newpath := st.m_name ++ short
  let setpath := fun (s : signal) => if s.sid = o.sid then {s with m_path := newpath} else s
  ({st with
      serverMethods := (st.serverMethods.filter (fun q => q ≠ o.m_path)) ++ [newpath],
      m_translations := rename_translation_destination st.m_translations o.m_path newpath,
      m_signals := st.m_signals.map setpath},
   st.m_peers.map (fun p =>
     msg.send (dest.toAddr p.p_addr) (tag_message tag.sigrenamed)
       [arg.s o.m_path, arg.s newpath]))

/-- `endpoint::del_signal` (endpoint.cpp:1273-1285): delete the wire
registration, broadcast "/signal/removed" to every peer, and
`m_signals.remove(o)` (pointer removal, modelled by `sid`).  The
translation map is not touched — the FIXME at endpoint.cpp:1280-1282 notes
that loopback connections are NOT cleared first. -/
def del_signal (st : endpoint) (o : signal) : endpoint × List msg :=
  ({st with
      serverMethods := st.serverMethods.filter (fun q => q ≠ o.m_path),
      m_signals := st.m_signals.filter (fun s => decide (s.sid ≠ o.sid))},
   st.m_peers.map (fun p =>
     msg.send (dest.toAddr p.p_addr) (tag_message tag.sigremoved) [arg.s o.m_path]))

/-- `endpoint::connect_signal` (endpoint.cpp:1077-1092): broadcast
"/signal/connect" (own path, remote path) to every peer when the signal is
output-direction; always returns true. -/
def connect_signal (st : endpoint) (s : signal) (signal_path : String) :
    Bool × List msg :=
  if s.m_direction = direction.output then
    (true, st.m_peers.map (fun p =>
      msg.send (dest.toAddr p.p_addr) (tag_message tag.sigconnect)
        [arg.s s.m_path, arg.s signal_path]))
  else (true, [])

/-- `endpoint::disconnect_signal` (endpoint.cpp:1097-1114): broadcast
"/signal/disconnect" and return true for an output-direction signal;
return false otherwise. -/
def disconnect_signal (st : endpoint) (s : signal) (signal_path : String) :
    Bool × List msg :=
  if s.m_direction = direction.output then
    (true, st.m_peers.map (fun p =>
      msg.send (dest.toAddr p.p_addr) (tag_message tag.sigdisconnect)
        [arg.s s.m_path, arg.s signal_path]))
  else (false, [])

/-! ## Concrete endpoint states used by the witnesses and counterexamples -/

/-- An endpoint with one peer and one translation "a" → "b" (cached 5). -/
def epC1 : endpoint :=
  ⟨[⟨false, "peer1", ⟨"h", "7000"⟩, []⟩], [], [], "",
   [("a", ⟨"b", 5, false⟩)], "/e", "u", [], false, false⟩

/-- An endpoint named "/e" owning signal "/e/old", with TWO translations
("s1" and "s2") whose destinations are both "/e/old". -/
def epC3 : endpoint :=
  ⟨[], [⟨1, "/e/old", direction.output, 0, ⟨0, 1, 0⟩⟩], [], "",
   [("s1", ⟨"/e/old", -1, false⟩), ("s2", ⟨"/e/old", -1, false⟩)],
   "/e", "u", ["/e/old"], false, false⟩

/-- The signal "/e/old" owned by `epC3`. -/
def sigC3 : signal := ⟨1, "/e/old", direction.output, 0, ⟨0, 1, 0⟩⟩

/-- An endpoint with one scanning peer (port "7000") that already holds a
remote signal with path "/sig". -/
def epC4 : endpoint :=
  ⟨[⟨true, "p", ⟨"h", "7000"⟩, [⟨0, "/sig", direction.input, 0, ⟨0, 1, 0⟩⟩]⟩],
   [], [], "", [], "", "u", [], false, false⟩

/-- An endpoint with one known peer named "p" at host "hostA", port "7000". -/
def epC5 : endpoint :=
  ⟨[⟨false, "p", ⟨"hostA", "7000"⟩, []⟩], [], [], "", [], "/e", "u0", [],
   false, false⟩

/-- An endpoint with one peer, used to witness the connect/disconnect
broadcasts. -/
def epC6 : endpoint :=
  ⟨[⟨false, "p", ⟨"h", "7000"⟩, []⟩], [], [], "", [], "/e", "u", [], false, false⟩

/-- A local output signal "/e/vol" for the C6 witness. -/
def sigC6 : signal := ⟨1, "/e/vol", direction.output, 0, ⟨0, 1, 0⟩⟩

/-- A local input signal for the C6 witness's negative case. -/
def sigC6in : signal := ⟨2, "/e/mon", direction.input, 0, ⟨0, 1, 0⟩⟩

/-- An endpoint with the scan-complete callback installed and one scanning
peer (port "7000") holding three discovered signals. -/
def epC7 : endpoint :=
  ⟨[⟨true, "p", ⟨"h", "7000"⟩,
     [⟨0, "/s1", direction.input, 0, ⟨0, 1, 0⟩⟩,
      ⟨0, "/s2", direction.input, 0, ⟨0, 1, 0⟩⟩,
      ⟨0, "/s3", direction.output, 0, ⟨0, 1, 0⟩⟩]⟩],
   [], [], "", [], "/e", "u", [], true, false⟩

/-- An endpoint owning two signals and a translation whose destination is
the first signal's path, for the C9 witness. -/
def epC9 : endpoint :=
  ⟨[⟨false, "p", ⟨"h", "7000"⟩, []⟩],
   [⟨1, "/e/a", direction.output, 0, ⟨0, 1, 0⟩⟩,
    ⟨2, "/e/b", direction.output, 0, ⟨0, 1, 0⟩⟩],
   [], "", [("src", ⟨"/e/a", -1, false⟩)], "/e", "u", ["/e/a", "/e/b"],
   false, false⟩

/-- The signal removed in the C9 witness. -/
def sigC9 : signal := ⟨1, "/e/a", direction.output, 0, ⟨0, 1, 0⟩⟩

/-- A minimal endpoint for the zero-argument /reply fault. -/
def epC10 : endpoint :=
  ⟨[⟨true, "p", ⟨"h", "7000"⟩, []⟩], [], [], "", [], "/e", "u", [], true, false⟩

/-! ## Helper lemmas -/

theorem update_first_length {α : Type} (P : α → Bool) (f : α → α) (l : List α) :
    (update_first P f l).length = l.length := by
  induction l with
  | nil => rfl
  | cons x xs ih =>
    by_cases h : P x = true
    · simp [update_first, h]
    · simp [update_first, h, ih]

theorem find?_update_first {α : Type} (P : α → Bool) (f : α → α)
    (hPf : ∀ x, P x = true → P (f x) = true) (l : List α) :
    (update_first P f l).find? P = (l.find? P).map f := by
  induction l with
  | nil => rfl
  | cons x xs ih =>
    by_cases h : P x = true
    · simp [update_first, h, List.find?_cons_of_pos _ h,
        List.find?_cons_of_pos _ (hPf x h)]
    · simp [update_first, h, List.find?_cons_of_neg _ h, ih]

theorem find?_append_none {α : Type} (P : α → Bool) (l1 l2 : List α)
    (h : l1.find? P = none) : (l1 ++ l2).find? P = l2.find? P := by
  induction l1 with
  | nil => rfl
  | cons x xs ih =>
    by_cases hx : P x = true
    · rw [List.find?_cons_of_pos _ hx] at h; exact absurd h (by simp)
    · rw [List.find?_cons_of_neg _ hx] at h
      simpa [List.find?_cons_of_neg _ hx] using ih h

theorem assocUpdate_keys (l : List (String × translation_destination)) (k : String)
    (f : translation_destination → translation_destination) :
    (assocUpdate l k f).map Prod.fst = l.map Prod.fst := by
  induction l with
  | nil => rfl
  | cons e rest ih =>
    by_cases h : e.1 = k
    · simp [assocUpdate, h]
    · simp [assocUpdate, h, ih]

theorem assocFind_assocUpdate (l : List (String × translation_destination))
    (k : String) (f : translation_destination → translation_destination) :
    assocFind (assocUpdate l k f) k = (assocFind l k).map f := by
  induction l with
  | nil => rfl
  | cons e rest ih =>
    by_cases h : e.1 = k
    · simp [assocUpdate, assocFind, h]
    · simp [assocUpdate, assocFind, h, ih]

theorem assocFind_map_val (l : List (String × translation_destination))
    (g : translation_destination → translation_destination) (k : String) :
    assocFind (l.map (fun e => (e.1, g e.2))) k = (assocFind l k).map g := by
  induction l with
  | nil => rfl
  | cons e rest ih =>
    by_cases h : e.1 = k
    · simp [assocFind, h]
    · simp [assocFind, h, ih]

theorem mem_of_assocFind (l : List (String × translation_destination))
    (k : String) (t : translation_destination) (h : assocFind l k = some t) :
    (k, t) ∈ l := by
  induction l with
  | nil => simp [assocFind] at h
  | cons e rest ih =>
    obtain ⟨e1, e2⟩ := e
    by_cases he : e1 = k
    · subst he
      simp [assocFind] at h
      subst h
      exact List.mem_cons_self _ _
    · simp [assocFind, he] at h
      exact List.mem_cons_of_mem _ (ih h)

theorem assocFind_of_mem_nodup (l : List (String × translation_destination))
    (e : String × translation_destination)
    (hnd : (l.map Prod.fst).Nodup) (he : e ∈ l) :
    assocFind l e.1 = some e.2 := by
  induction l with
  | nil => simp at he
  | cons x rest ih =>
    rcases List.mem_cons.mp he with rfl | hmem
    · simp [assocFind]
    · have hx : x.1 ≠ e.1 := by
        intro hx
        have : e.1 ∈ rest.map Prod.fst := List.mem_map_of_mem Prod.fst hmem
        rw [List.map_cons, List.nodup_cons] at hnd
        exact hnd.1 (hx ▸ this)
      have hnd' : (rest.map Prod.fst).Nodup := by
        rw [List.map_cons, List.nodup_cons] at hnd
        exact hnd.2
      simp [assocFind, hx, ih hnd' hmem]

theorem rtd_of_forall_ne (l : List (String × translation_destination)) (a b : String)
    (h : ∀ e ∈ l, e.2.m_path ≠ a) :
    rename_translation_destination l a b = l := by
  induction l with
  | nil => rfl
  | cons e rest ih =>
    have he : e.2.m_path ≠ a := h e (List.mem_cons_self e rest)
    simp only [rename_translation_destination, if_neg he]
    rw [ih (fun x hx => h x (List.mem_cons_of_mem e hx))]

theorem rtd_first_match (l1 l2 : List (String × translation_destination))
    (e : String × translation_destination) (a b : String)
    (h1 : ∀ x ∈ l1, x.2.m_path ≠ a) (h2 : e.2.m_path = a) :
    rename_translation_destination (l1 ++ e :: l2) a b =
      l1 ++ (e.1, {e.2 with m_path := b}) :: l2 := by
  induction l1 with
  | nil => simp [rename_translation_destination, h2]
  | cons x rest ih =>
    have hx : x.2.m_path ≠ a := h1 x (List.mem_cons_self x rest)
    have ih' := ih (fun y hy => h1 y (List.mem_cons_of_mem x hy))
    simp only [List.cons_append, rename_translation_destination, if_neg hx,
      List.append_eq, ih']

theorem mem_sf_msgs (peers : List peer) (path : String) (v : Int) (k : String)
    (t : translation_destination) (m : msg) (h : m ∈ sf_msgs peers path v k t) :
    t.m_path = path ∧ t.m_suppress_feedback = false ∧ t.m_current_value ≠ v ∧
      ∃ p ∈ peers, m = msg.send (dest.toAddr p.p_addr) k [arg.f v] := by
  unfold sf_msgs at h
  by_cases hc : t.m_path = path ∧ ¬ t.m_suppress_feedback ∧ t.m_current_value ≠ v
  · rw [if_pos hc] at h
    rcases List.mem_map.mp h with ⟨p, hp, hm⟩
    exact ⟨hc.1, by simpa using hc.2.1, hc.2.2, p, hp, hm.symm⟩
  · rw [if_neg hc] at h
    simp at h

theorem mem_send_feedback_out (st : endpoint) (path : String) (v : Int) (m : msg)
    (h : m ∈ (send_feedback st path v).2) :
    ∃ e ∈ st.m_translations, m ∈ sf_msgs st.m_peers path v e.1 e.2 := by
  unfold send_feedback at h
  simp only [List.mem_flatten, List.mem_map] at h
  rcases h with ⟨lm, ⟨e, he, hlm⟩, hm⟩
  exact ⟨e, he, hlm ▸ hm⟩

theorem send_feedback_out_of_mem (st : endpoint) (path : String) (v : Int) (m : msg)
    (e : String × translation_destination) (he : e ∈ st.m_translations)
    (hm : m ∈ sf_msgs st.m_peers path v e.1 e.2) :
    m ∈ (send_feedback st path v).2 := by
  unfold send_feedback
  simp only [List.mem_flatten, List.mem_map]
  exact ⟨sf_msgs st.m_peers path v e.1 e.2, ⟨e, he, rfl⟩, hm⟩

theorem sf_dest_cleared (st : endpoint) (path : String) (v : Int)
    (e : String × translation_destination)
    (he : e ∈ (send_feedback st path v).1.m_translations)
    (hd : e.2.m_path = path) : e.2.m_suppress_feedback = false := by
  unfold send_feedback at he
  simp only [List.mem_map] at he
  rcases he with ⟨x, _, rfl⟩
  by_cases hx : x.2.m_path = path
  · simp [sf_val, hx]
  · simp only [sf_val, if_neg hx] at hd ⊢
    exact absurd hd hx

theorem osc_generic_translate (st : endpoint) (path types : String) (a0 : arg)
    (rest : List arg) (t : translation_destination)
    (hl : st.m_learning_path = "")
    (hf : assocFind st.m_translations path = some t) :
    osc_generic st path types (a0 :: rest) =
      ({st with m_translations := (assocUpdate st.m_translations path (fun u =>
          ⟨u.m_path, if types = "f" then argFloat a0 else u.m_current_value, true⟩))},
       [msg.send dest.self t.m_path (a0 :: rest)], hres.handled) := by
  unfold osc_generic
  simp [hl, hf]

theorem tag_message_siglist : tag_message tag.siglist = "/signal/list" := by decide

theorem find_peer_update_push (l : List peer) (port : String) (p : peer) (s : signal)
    (hp : find_peer_by_address l port = some p) :
    find_peer_by_address
        (update_peer_by_address l port (fun q => {q with p_signals := q.p_signals ++ [s]}))
        port
      = some {p with p_signals := p.p_signals ++ [s]} := by
  unfold find_peer_by_address at hp
  unfold find_peer_by_address update_peer_by_address
  rw [find?_update_first (fun (x : peer) => decide (x.p_addr.port = port))
      (fun (q : peer) => {q with p_signals := q.p_signals ++ [s]}) (fun x hx => hx), hp]
  rfl

theorem find_peer_update_clear (l : List peer) (port : String) (p : peer)
    (hp : find_peer_by_address l port = some p) :
    find_peer_by_address
        (update_peer_by_address l port (fun q => {q with p_scanning := false})) port
      = some {p with p_scanning := false} := by
  unfold find_peer_by_address at hp
  unfold find_peer_by_address update_peer_by_address
  rw [find?_update_first (fun (x : peer) => decide (x.p_addr.port = port))
      (fun (q : peer) => {q with p_scanning := false}) (fun x hx => hx), hp]
  rfl

theorem find_peer_update_refresh (l : List peer) (n : String) (u : address) (p : peer)
    (hp : find_peer_by_name l n = some p) :
    find_peer_by_name
        (update_peer_by_name l n (fun q => {q with p_addr := u, p_scanning := true})) n
      = some {p with p_addr := u, p_scanning := true} := by
  unfold find_peer_by_name at hp
  unfold find_peer_by_name update_peer_by_name
  rw [find?_update_first (fun (x : peer) => decide (x.p_name = n))
      (fun (q : peer) => {q with p_addr := u, p_scanning := true}) (fun x hx => hx), hp]
  rfl

/-! ## Claim theorems -/

/-- C1: for a translation A → B with cached value V (and unique map keys,
as `std::map` guarantees), after the inbound generic handler forwards a
message for A — which sets the suppress-feedback flag (and, for an "f"
message, caches the forwarded value c1) — an immediately following
`send_feedback(B, V)` emits no message whose path is A and clears the
flag; a subsequent `send_feedback(B, V2)` with V2 different from the
cached value sends V2 to path A on every known peer and updates the cached
value; and after either `send_feedback` call every translation with
destination B has a cleared suppress-feedback flag. -/
theorem translation_feedback_suppression
    (st st1 : endpoint) (A B types : String) (a0 : arg) (rest : List arg)
    (V V2 c1 : Int) (t0 : translation_destination)
    (hlearn : st.m_learning_path = "")
    (hfind : assocFind st.m_translations A = some t0)
    (hdest : t0.m_path = B)
    (hkeys : (st.m_translations.map Prod.fst).Nodup)
    (hst1 : st1 = (osc_generic st A types (a0 :: rest)).1)
    (hc1 : c1 = (if types = "f" then argFloat a0 else t0.m_current_value)) :
    (∀ d as2, msg.send d A as2 ∉ (send_feedback st1 B V).2) ∧
    assocFind (send_feedback st1 B V).1.m_translations A = some ⟨B, c1, false⟩ ∧
    (V2 ≠ c1 →
      (∀ p ∈ st.m_peers,
        msg.send (dest.toAddr p.p_addr) A [arg.f V2] ∈
          (send_feedback (send_feedback st1 B V).1 B V2).2) ∧
      assocFind (send_feedback (send_feedback st1 B V).1 B V2).1.m_translations A =
        some ⟨B, V2, false⟩) ∧
    (∀ e ∈ (send_feedback st1 B V).1.m_translations,
      e.2.m_path = B → e.2.m_suppress_feedback = false) ∧
    (∀ e ∈ (send_feedback (send_feedback st1 B V).1 B V2).1.m_translations,
      e.2.m_path = B → e.2.m_suppress_feedback = false) := by
  subst hst1
  subst hc1
  have hgen := osc_generic_translate st A types a0 rest t0 hlearn hfind
  have h1trans : ((osc_generic st A types (a0 :: rest)).1).m_translations
      = assocUpdate st.m_translations A (fun u =>
          ⟨u.m_path, if types = "f" then argFloat a0 else u.m_current_value, true⟩) := by
    rw [hgen]
  have h1peers : ((osc_generic st A types (a0 :: rest)).1).m_peers = st.m_peers := by
    rw [hgen]
  have hfind1 : assocFind ((osc_generic st A types (a0 :: rest)).1).m_translations A
      = some ⟨B, (if types = "f" then argFloat a0 else t0.m_current_value), true⟩ := by
    rw [h1trans, assocFind_assocUpdate, hfind]
    simp [hdest]
  have hkeys1 :
      (((osc_generic st A types (a0 :: rest)).1).m_translations.map Prod.fst).Nodup := by
    rw [h1trans, assocUpdate_keys]
    exact hkeys
  have hfind2 :
      assocFind (send_feedback (osc_generic st A types (a0 :: rest)).1 B V).1.m_translations A
        = some ⟨B, (if types = "f" then argFloat a0 else t0.m_current_value), false⟩ := by
    show assocFind
        (((osc_generic st A types (a0 :: rest)).1).m_translations.map
          (fun e => (e.1, sf_val B V e.2))) A = _
    rw [assocFind_map_val, hfind1]
    simp [sf_val]
  have hpeers2 :
      (send_feedback (osc_generic st A types (a0 :: rest)).1 B V).1.m_peers = st.m_peers := by
    show ((osc_generic st A types (a0 :: rest)).1).m_peers = st.m_peers
    exact h1peers
  refine ⟨?_, hfind2, ?_, ?_, ?_⟩
  · intro d as2 hm
    rcases mem_send_feedback_out _ _ _ _ hm with ⟨e, he, hmsgs⟩
    rcases mem_sf_msgs _ _ _ _ _ _ hmsgs with ⟨hpath, hsupp, hne, p, hp, hmeq⟩
    injection hmeq with hd hk hargs
    have h' := assocFind_of_mem_nodup _ e hkeys1 he
    rw [← hk, hfind1] at h'
    injection h' with h''
    rw [← h''] at hsupp
    simp at hsupp
  · intro hV2
    have hmem2 := mem_of_assocFind _ _ _ hfind2
    constructor
    · intro p hp
      apply send_feedback_out_of_mem _ _ _ _ _ hmem2
      rw [hpeers2]
      unfold sf_msgs
      rw [if_pos ⟨rfl, by simp, Ne.symm hV2⟩]
      exact List.mem_map.mpr ⟨p, hp, rfl⟩
    · show assocFind
          ((send_feedback (osc_generic st A types (a0 :: rest)).1 B V).1.m_translations.map
            (fun e => (e.1, sf_val B V2 e.2))) A = _
      rw [assocFind_map_val, hfind2]
      simp [sf_val, Ne.symm hV2]
  · exact fun e he hd => sf_dest_cleared _ _ _ e he hd
  · exact fun e he hd => sf_dest_cleared _ _ _ e he hd

/-- Witness for C1: in `epC1` (translation "a" → "b", cached 5), forward
an "f"-typed message with value 7 for "a", then `send_feedback("b", 5)`
(suppressed), then `send_feedback("b", 3)`: the value 3 is emitted to path
"a" at the known peer. -/
theorem translation_feedback_suppression_witness :
    msg.send (dest.toAddr ⟨"h", "7000"⟩) "a" [arg.f 3] ∈
      (send_feedback (send_feedback (osc_generic epC1 "a" "f" [arg.f 7]).1 "b" 5).1
        "b" 3).2 := by
  have h := translation_feedback_suppression epC1
      (osc_generic epC1 "a" "f" [arg.f 7]).1 "a" "b" "f" (arg.f 7) [] 5 3 7
      ⟨"b", 5, false⟩ rfl (by decide) rfl (by decide) rfl (by decide)
  exact (h.2.2.1 (by decide)).1 ⟨false, "peer1", ⟨"h", "7000"⟩, []⟩ (by decide)

/-- C3 counterexample: in `epC3` two translations ("s1" and "s2") both
have destination "/e/old"; after renaming the signal "/e/old" to "/e/new",
`rename_translation_destination` (endpoint.cpp:710-725) `break`s after the
first match, so a translation with destination "/e/old" remains — the
claim that EVERY such translation is retargeted is false here. -/
theorem signal_rename_counterexample :
    ¬ (∀ e ∈ (signal_rename epC3 sigC3 "/new").1.m_translations,
        e.2.m_path ≠ "/e/old") := by
  decide

/-- C3 amended: `signal::rename` (a) removes the old path's wire
registration and installs the new one, (b) retargets only the FIRST
translation (in map order) whose destination equals the old path, leaving
any later matches unchanged, and (c) notifies every known peer with
"/signal/renamed" (old, new). -/
theorem signal_rename_effects (st : endpoint) (o : signal) (short : String)
    (hne : st.m_name ++ short ≠ o.m_path) :
    (o.m_path ∉ (signal_rename st o short).1.serverMethods ∧
      (st.m_name ++ short) ∈ (signal_rename st o short).1.serverMethods) ∧
    (∀ p ∈ st.m_peers,
      msg.send (dest.toAddr p.p_addr) (tag_message tag.sigrenamed)
        [arg.s o.m_path, arg.s (st.m_name ++ short)] ∈ (signal_rename st o short).2) ∧
    ((∀ e ∈ st.m_translations, e.2.m_path ≠ o.m_path) →
      (signal_rename st o short).1.m_translations = st.m_translations) ∧
    (∀ l1 e l2, st.m_translations = l1 ++ e :: l2 →
      (∀ x ∈ l1, x.2.m_path ≠ o.m_path) → e.2.m_path = o.m_path →
      (signal_rename st o short).1.m_translations =
        l1 ++ (e.1, {e.2 with m_path := st.m_name ++ short}) :: l2) := by
  refine ⟨⟨?_, ?_⟩, ?_, ?_, ?_⟩
  · intro hmem
    have h' : o.m_path ∈
        (st.serverMethods.filter (fun q => q ≠ o.m_path)) ++ [st.m_name ++ short] := hmem
    rcases List.mem_append.mp h' with h1 | h1
    · rcases List.mem_filter.mp h1 with ⟨-, hq⟩
      simp at hq
    · rcases List.mem_singleton.mp h1 with h2
      exact hne h2.symm
  · show (st.m_name ++ short) ∈
      (st.serverMethods.filter (fun q => q ≠ o.m_path)) ++ [st.m_name ++ short]
    exact List.mem_append.mpr (Or.inr (List.mem_singleton.mpr rfl))
  · intro p hp
    exact List.mem_map.mpr ⟨p, hp, rfl⟩
  · intro h
    show rename_translation_destination st.m_translations o.m_path (st.m_name ++ short)
      = st.m_translations
    exact rtd_of_forall_ne _ _ _ h
  · intro l1 e l2 hsplit h1 h2
    show rename_translation_destination st.m_translations o.m_path (st.m_name ++ short)
      = l1 ++ (e.1, {e.2 with m_path := st.m_name ++ short}) :: l2
    rw [hsplit]
    exact rtd_first_match l1 l2 e _ _ h1 h2

/-- Witness for C3: renaming `sigC3` in `epC3` retargets exactly the
first of the two "/e/old" translations. -/
theorem signal_rename_effects_witness :
    (signal_rename epC3 sigC3 "/new").1.m_translations =
      [("s1", ⟨"/e/new", -1, false⟩), ("s2", ⟨"/e/old", -1, false⟩)] := by
  have h := (signal_rename_effects epC3 sigC3 "/new" (by decide)).2.2.2
      [] ("s1", ⟨"/e/old", -1, false⟩) [("s2", ⟨"/e/old", -1, false⟩)]
      rfl (by simp) rfl
  rw [h]
  decide

/-- C4 counterexample: in `epC4` the peer at port "7000" already holds a
signal with path "/sig"; delivering "/signal/created" for the same path
appends a SECOND record (osc_sig_created, endpoint.cpp:509-569, performs
no duplicate check), refuting the claim that the peer-initiated creation
handler never duplicates an existing (peer, path) pair. -/
theorem sig_created_duplicate_counterexample :
    (find_peer_by_address epC4.m_peers "7000").map
        (fun q => q.p_signals.countP (fun s => s.m_path = "/sig")) = some 1 ∧
    (find_peer_by_address (osc_sig_created epC4
          [arg.s "/sig", arg.s "in", arg.f 0, arg.f 1, arg.f 0] "7000").1.m_peers
        "7000").map
        (fun q => q.p_signals.countP (fun s => s.m_path = "/sig")) = some 2 := by
  decide

/-- C4 amended: a duplicate 6-argument scan reply for an already-recorded
(peer, path) pair is idempotent (the state is returned unchanged), but the
peer-initiated "/signal/created" handler appends unconditionally, growing
the (peer, path) record count by one even when the path already exists. -/
theorem remote_discovery_duplicate (st : endpoint) (port pathname dirn : String)
    (a b c : Int) (p : peer) (s0 : signal)
    (hp : find_peer_by_address st.m_peers port = some p)
    (hscan : p.p_scanning = true)
    (hsig : find_peer_signal_by_path p pathname = some s0) :
    osc_reply st [arg.s "/signal/list", arg.s pathname, arg.s dirn,
        arg.f a, arg.f b, arg.f c] port = some (st, [], hres.handled) ∧
    (find_peer_by_address (osc_sig_created st
          [arg.s pathname, arg.s dirn, arg.f a, arg.f b, arg.f c] port).1.m_peers
        port).map (fun q => q.p_signals.countP (fun s => s.m_path = pathname)) =
      some (p.p_signals.countP (fun s => s.m_path = pathname) + 1) := by
  constructor
  · unfold osc_reply
    simp [argString, tag_message_siglist, hp, hscan, hsig]
  · unfold osc_sig_created
    simp only [hp]
    rw [find_peer_update_push st.m_peers port p _ hp]
    simp [List.countP_append, List.countP_cons, argString]

/-- Witness for C4: the duplicate scan reply for "/sig" leaves `epC4`
unchanged, and the creation handler raises the "/sig" record count
from 1 to 2. -/
theorem remote_discovery_duplicate_witness :
    osc_reply epC4 [arg.s "/signal/list", arg.s "/sig", arg.s "in",
        arg.f 0, arg.f 1, arg.f 0] "7000" = some (epC4, [], hres.handled) ∧
    (find_peer_by_address (osc_sig_created epC4
          [arg.s "/sig", arg.s "in", arg.f 0, arg.f 1, arg.f 0] "7000").1.m_peers
        "7000").map (fun q => q.p_signals.countP (fun s => s.m_path = "/sig")) =
      some 2 := by
  have h := remote_discovery_duplicate epC4 "7000" "/sig" "in" 0 1 0
      ⟨true, "p", ⟨"h", "7000"⟩, [⟨0, "/sig", direction.input, 0, ⟨0, 1, 0⟩⟩]⟩
      ⟨0, "/sig", direction.input, 0, ⟨0, 1, 0⟩⟩ (by decide) rfl (by decide)
  exact ⟨h.1, h.2⟩

/-- C5 counterexample: `epC5` knows peer "p" at ("hostA", "7000"); a hello
for "p" from the DIFFERENT url ("hostB", "7000") does not replace the
stored address and does not re-enter scanning, because `address_matches`
(endpoint.cpp:1011-1017) compares only the ports — refuting the claim that
any different url refreshes the address. -/
theorem hello_same_port_counterexample :
    (⟨"hostB", "7000"⟩ : address) ≠ ⟨"hostA", "7000"⟩ ∧
    find_peer_by_name epC5.m_peers "p" = some ⟨false, "p", ⟨"hostA", "7000"⟩, []⟩ ∧
    ¬ (find_peer_by_name (handle_hello epC5 "p" ⟨"hostB", "7000"⟩).1.m_peers "p" =
        some ⟨true, "p", ⟨"hostB", "7000"⟩, []⟩) := by
  decide

/-- C5 amended: receiving the same hello twice yields exactly one peer
entry with that name; a hello with the same name and a url with a
DIFFERENT PORT replaces the stored address in place (re-entering scanning)
without adding an entry; a url with the same port — even from a different
host — is treated as the same address and changes nothing (address
comparison is port-only). -/
theorem hello_discovery (st : endpoint) (n : String) (u : address) :
    (find_peer_by_name st.m_peers n = none →
      (handle_hello (handle_hello st n u).1 n u).1.m_peers.countP
          (fun p => p.p_name = n) = 1) ∧
    (∀ p, find_peer_by_name st.m_peers n = some p → u.port ≠ p.p_addr.port →
      (handle_hello st n u).1.m_peers.length = st.m_peers.length ∧
      find_peer_by_name (handle_hello st n u).1.m_peers n =
        some {p with p_addr := u, p_scanning := true}) ∧
    (∀ p, find_peer_by_name st.m_peers n = some p → u.port = p.p_addr.port →
      handle_hello st n u = (st, [])) := by
  refine ⟨?_, ?_, ?_⟩
  · intro h0
    have h1 : (handle_hello st n u).1.m_peers = st.m_peers ++ [⟨true, n, u, []⟩] := by
      unfold handle_hello
      simp only [h0]
      rfl
    have h2 : find_peer_by_name (st.m_peers ++ [⟨true, n, u, []⟩]) n =
        some ⟨true, n, u, []⟩ := by
      unfold find_peer_by_name at h0 ⊢
      rw [find?_append_none _ _ _ h0]
      simp [List.find?]
    have h3 : handle_hello (handle_hello st n u).1 n u = ((handle_hello st n u).1, []) := by
      have hfind : find_peer_by_name (handle_hello st n u).1.m_peers n =
          some ⟨true, n, u, []⟩ := by
        rw [h1]; exact h2
      generalize hgen : (handle_hello st n u).1 = st1 at hfind ⊢
      unfold handle_hello
      simp [hfind]
    rw [h3]
    show (handle_hello st n u).1.m_peers.countP (fun p => p.p_name = n) = 1
    rw [h1, List.countP_append]
    have h4 : st.m_peers.countP (fun p => p.p_name = n) = 0 :=
      List.countP_eq_zero.mpr (fun a ha => by
        unfold find_peer_by_name at h0
        exact List.find?_eq_none.mp h0 a ha)
    simp [h4, List.countP_cons]
  · intro p hp hport
    have hh : (handle_hello st n u).1.m_peers = update_peer_by_name st.m_peers n
        (fun q => {q with p_addr := u, p_scanning := true}) := by
      unfold handle_hello
      simp only [hp]
      rw [if_neg hport]
    constructor
    · rw [hh]
      exact update_first_length _ _ _
    · rw [hh]
      exact find_peer_update_refresh st.m_peers n u p hp
  · intro p hp hport
    unfold handle_hello
    simp only [hp]
    rw [if_pos hport]

/-- Witness for C5: refreshing peer "p" of `epC5` from a url with a
different port updates the entry in place. -/
theorem hello_discovery_witness :
    find_peer_by_name (handle_hello epC5 "p" ⟨"hostB", "7001"⟩).1.m_peers "p" =
      some ⟨true, "p", ⟨"hostB", "7001"⟩, []⟩ := by
  have h := (hello_discovery epC5 "p" ⟨"hostB", "7001"⟩).2.1
      ⟨false, "p", ⟨"hostA", "7000"⟩, []⟩ (by decide) (by decide)
  exact h.2

/-- C6: `connect_signal` broadcasts "/signal/connect" (own path, remote
path) to every known peer exactly when the signal is output-direction
(nothing is sent otherwise), and `disconnect_signal` is symmetric,
returning false — with no broadcast — whenever the signal is not
output-direction. -/
theorem connect_disconnect_output_only (st : endpoint) (s : signal) (remote : String) :
    (s.m_direction = direction.output →
      ∀ p ∈ st.m_peers,
        msg.send (dest.toAddr p.p_addr) (tag_message tag.sigconnect)
          [arg.s s.m_path, arg.s remote] ∈ (connect_signal st s remote).2) ∧
    (s.m_direction ≠ direction.output → (connect_signal st s remote).2 = []) ∧
    (s.m_direction = direction.output →
      (disconnect_signal st s remote).1 = true ∧
      ∀ p ∈ st.m_peers,
        msg.send (dest.toAddr p.p_addr) (tag_message tag.sigdisconnect)
          [arg.s s.m_path, arg.s remote] ∈ (disconnect_signal st s remote).2) ∧
    (s.m_direction ≠ direction.output →
      (disconnect_signal st s remote).1 = false ∧
        (disconnect_signal st s remote).2 = []) := by
  refine ⟨?_, ?_, ?_, ?_⟩ <;> intro hdir
  · intro p hp
    unfold connect_signal
    rw [if_pos hdir]
    exact List.mem_map.mpr ⟨p, hp, rfl⟩
  · unfold connect_signal
    rw [if_neg hdir]
  · unfold disconnect_signal
    rw [if_pos hdir]
    exact ⟨rfl, fun p hp => List.mem_map.mpr ⟨p, hp, rfl⟩⟩
  · unfold disconnect_signal
    rw [if_neg hdir]
    exact ⟨rfl, rfl⟩

/-- Witness for C6: connecting the output signal "/e/vol" of `epC6`
broadcasts to its peer, and disconnecting the input signal returns
false. -/
theorem connect_disconnect_output_only_witness :
    msg.send (dest.toAddr ⟨"h", "7000"⟩) (tag_message tag.sigconnect)
      [arg.s "/e/vol", arg.s "/target"] ∈ (connect_signal epC6 sigC6 "/target").2 ∧
    (disconnect_signal epC6 sigC6in "/target").1 = false := by
  constructor
  · exact (connect_disconnect_output_only epC6 sigC6 "/target").1 rfl
      ⟨false, "p", ⟨"h", "7000"⟩, []⟩ (by decide)
  · exact ((connect_disconnect_output_only epC6 sigC6in "/target").2.2.2 (by decide)).1

/-- C7: when the one-argument "/signal/list" reply terminator arrives from
a known scanning peer and the scan-complete callback is installed, the
handler clears that peer's scanning flag in place, emits exactly one
scan-complete callback invocation (the whole output trace is that single
event), and leaves the peer's discovered signal list — hence its count —
unchanged. -/
theorem scan_terminator (st : endpoint) (port : String) (p : peer)
    (hp : find_peer_by_address st.m_peers port = some p)
    (_hscan : p.p_scanning = true)
    (hcb : st.hasScanCompleteCB = true) :
    osc_reply st [arg.s "/signal/list"] port =
      some ({st with m_peers := (update_peer_by_address st.m_peers port (fun q =>
          {q with p_scanning := false}))}, [msg.scanCompleteCB], hres.handled) ∧
    find_peer_by_address (update_peer_by_address st.m_peers port (fun q =>
        {q with p_scanning := false})) port = some {p with p_scanning := false} ∧
    ({p with p_scanning := false}).p_signals.length = p.p_signals.length := by
  refine ⟨?_, find_peer_update_clear st.m_peers port p hp, rfl⟩
  unfold osc_reply
  simp [argString, tag_message_siglist, hp, hcb]

/-- Witness for C7: the terminator from port "7000" clears `epC7`'s
peer's scanning flag, fires the callback once, and keeps its three
signals. -/
theorem scan_terminator_witness :
    osc_reply epC7 [arg.s "/signal/list"] "7000" =
      some ({epC7 with m_peers := (update_peer_by_address epC7.m_peers "7000" (fun q =>
          {q with p_scanning := false}))}, [msg.scanCompleteCB], hres.handled) ∧
    find_peer_by_address (update_peer_by_address epC7.m_peers "7000" (fun q =>
        {q with p_scanning := false})) "7000" =
      some ⟨false, "p", ⟨"h", "7000"⟩,
        [⟨0, "/s1", direction.input, 0, ⟨0, 1, 0⟩⟩,
         ⟨0, "/s2", direction.input, 0, ⟨0, 1, 0⟩⟩,
         ⟨0, "/s3", direction.output, 0, ⟨0, 1, 0⟩⟩]⟩ := by
  have h := scan_terminator epC7 "7000"
      ⟨true, "p", ⟨"h", "7000"⟩,
        [⟨0, "/s1", direction.input, 0, ⟨0, 1, 0⟩⟩,
         ⟨0, "/s2", direction.input, 0, ⟨0, 1, 0⟩⟩,
         ⟨0, "/s3", direction.output, 0, ⟨0, 1, 0⟩⟩]⟩ (by decide) rfl rfl
  exact ⟨h.1, h.2.1⟩

/-- C9: `del_signal` removes the signal's wire registration, broadcasts
"/signal/removed" to every known peer, and removes the signal (by object
identity) from the local signal collection, while the translation map is
left entirely unchanged — in particular every translation whose
destination is the removed signal's path survives the call. -/
theorem del_signal_translations_frame (st : endpoint) (o : signal) :
    o.m_path ∉ (del_signal st o).1.serverMethods ∧
    (∀ p ∈ st.m_peers,
      msg.send (dest.toAddr p.p_addr) (tag_message tag.sigremoved) [arg.s o.m_path]
        ∈ (del_signal st o).2) ∧
    (∀ s ∈ (del_signal st o).1.m_signals, s.sid ≠ o.sid) ∧
    (∀ s ∈ st.m_signals, s.sid ≠ o.sid → s ∈ (del_signal st o).1.m_signals) ∧
    (del_signal st o).1.m_translations = st.m_translations ∧
    (∀ e ∈ st.m_translations, e.2.m_path = o.m_path →
      e ∈ (del_signal st o).1.m_translations) := by
  refine ⟨?_, ?_, ?_, ?_, rfl, fun e he _ => he⟩
  · intro hmem
    have h' : o.m_path ∈ st.serverMethods.filter (fun q => q ≠ o.m_path) := hmem
    rcases List.mem_filter.mp h' with ⟨-, hq⟩
    simp at hq
  · intro p hp
    exact List.mem_map.mpr ⟨p, hp, rfl⟩
  · intro s hs
    rcases List.mem_filter.mp hs with ⟨-, hq⟩
    simpa using hq
  · intro s hs hneq
    exact List.mem_filter.mpr ⟨hs, by simpa using hneq⟩

/-- Witness for C9: deleting "/e/a" from `epC9` broadcasts the removal to
its peer and leaves the translation targeting "/e/a" in the map. -/
theorem del_signal_translations_frame_witness :
    (del_signal epC9 sigC9).1.m_translations = [("src", ⟨"/e/a", -1, false⟩)] ∧
    msg.send (dest.toAddr ⟨"h", "7000"⟩) (tag_message tag.sigremoved) [arg.s "/e/a"]
      ∈ (del_signal epC9 sigC9).2 := by
  have h := del_signal_translations_frame epC9 sigC9
  exact ⟨h.2.2.2.2.1, h.2.1 ⟨false, "p", ⟨"h", "7000"⟩, []⟩ (by decide)⟩

/-- C10: `endpoint::osc_reply` executes
`std::string sigcmd = &argv[0]->s;` (endpoint.cpp:901) BEFORE its
`argc > 0` guard, so a "/reply" delivered with zero arguments dereferences
the (null/empty) argument array — modelled as the `none` fault — instead
of being processed without any access to it, as claimed. -/
theorem reply_zero_arguments_fault : osc_reply epC10 [] "7000" = none := rfl

end osc
